import Mathlib

/-!
Verification development for the BoozeAnalysis backend
(src/backend/server.py).  The Python source is shallowly embedded:
pandas cells become an inductive `Cell` carrying the string form of the
cell together with the outcomes of Python `float(...)` coercion, machine
floats become `ℚ`, Python `int(...)` truncation becomes `pyTrunc`, and
the MongoDB calls of the upload handler become an explicit list of
repository operations.  Every definition is annotated with the source
lines it embeds.
-/

namespace BoozeAnalysis

/-- Error taxonomy of the parsing pipeline (`HTTPException` details raised in
`parse_excel_data`, `parse_tabular_format`, `parse_list_format` and
`upload_liquor_data`, server.py lines 110-123, 159-172, 396-397, 423-430, 521). -/
inductive ParseError where
  | unrecognizedFormat
  | emptyData
  | missingBrandColumn
  | missingDateColumns
  | noValidBrandRows
  | noBrandNames
  | insufficientData
  | noValidRows
  | noValidData
deriving DecidableEq, Repr

/-- A pandas cell as the pipeline observes it.  `na` is a missing value
(`pd.notna` false).  `val s v v2` is a present cell: `s` is `str(cell)`,
`v` is the outcome of Python `float(cell)` (`none` when that raises), and
`v2` is the outcome of `float(str(cell).replace(',', ''))`, used by the
second coercion attempt at server.py line 291. -/
inductive Cell where
  | na
  | val (s : String) (v v2 : Option ℚ)
deriving DecidableEq

/-- `pd.notna` on a cell. -/
def Cell.notna : Cell → Bool
  | .na => false
  | .val _ _ _ => true

/-- `str(cell)`; Python renders a missing value as `"nan"`. -/
def cellStr : Cell → String
  | .na => "nan"
  | .val s _ _ => s

/-- `row[col]` on a positional row; out-of-range reads as missing. -/
def getCell (row : List Cell) (i : ℕ) : Cell :=
  row.getD i Cell.na

/-- Python `int(x)` on a rational: truncation toward zero. -/
def pyTrunc (q : ℚ) : ℤ :=
  if q < 0 then -(Rat.floor (-q)) else Rat.floor q

/-- Round half to even (Python `round` tie-breaking), on rationals. -/
def roundHalfEven (x : ℚ) : ℤ :=
  let f := Rat.floor x
  let frac := x - (f : ℚ)
  if frac < 1/2 then f
  else if 1/2 < frac then f + 1
  else if f % 2 = 0 then f else f + 1

/-- Python `round(x, 2)` modelled on rationals. -/
def pyRound2 (q : ℚ) : ℚ :=
  (roundHalfEven (q * 100) : ℚ) / 100

/-- Lexicographic strict order on character lists: Python string `<`
(code-point comparison). -/
def lexLt : List Char → List Char → Bool
  | [], [] => false
  | [], _ :: _ => true
  | _ :: _, [] => false
  | a :: xs, b :: ys =>
    if a < b then true else if b < a then false else lexLt xs ys

/-- Python string `<=` (used at server.py line 328 and for sorting labels). -/
def strLeB (a b : String) : Bool :=
  !(lexLt b.toList a.toList)

/-- Insert `x` after every element `y` of a sorted list with `le y x`;
building block of a stable insertion sort. -/
def insertSorted (le : α → α → Bool) (x : α) : List α → List α
  | [] => [x]
  | y :: ys => if le y x then y :: insertSorted le x ys else x :: y :: ys

/-- Stable insertion sort with respect to a boolean `le`; models Python
`list.sort()` / `sorted()` for the orderings used by the pipeline. -/
def sortWithLe (le : α → α → Bool) (l : List α) : List α :=
  l.foldl (fun acc x => insertSorted le x acc) []

/-- `sorted(date_columns)` on `(label, column-index)` pairs, ordered by the raw
label string (server.py lines 154 and 198). -/
def sortByLabel (l : List (String × ℕ)) : List (String × ℕ) :=
  sortWithLe (fun p q => strLeB p.1 q.1) l

/-- `needle` matches at the head of `hay`. -/
def startsWithB : List Char → List Char → Bool
  | [], _ => true
  | _ :: _, [] => false
  | a :: xs, b :: ys => a = b && startsWithB xs ys

/-- `needle` occurs somewhere in `hay`. -/
def containsSubAux : List Char → List Char → Bool
  | needle, [] => startsWithB needle []
  | needle, c :: rest => startsWithB needle (c :: rest) || containsSubAux needle rest

/-- Python `needle in hay` on strings (substring test). -/
def containsSub (hay needle : String) : Bool :=
  containsSubAux needle.toList hay.toList

/-- ASCII lower-casing of one character (the headers the heuristics match are
English ASCII text). -/
def lowerCh (c : Char) : Char :=
  if 65 ≤ c.toNat ∧ c.toNat ≤ 90 then Char.ofNat (c.toNat + 32) else c

/-- Python `str.lower()` on the ASCII range. -/
def pyLower (s : String) : String :=
  String.mk (s.toList.map lowerCh)

/-- ASCII whitespace as stripped by Python `str.strip()`. -/
def isSpaceCh (c : Char) : Bool :=
  c = ' ' || c = '\t' || c = '\n' || c = '\r' || c = '\x0b' || c = '\x0c'

/-- Python `str.strip()`. -/
def pyStrip (s : String) : String :=
  String.mk (((s.toList.dropWhile isSpaceCh).reverse.dropWhile isSpaceCh).reverse)

/-- Result of the column classification loop, server.py lines 128-151:
`brand_col`, `wholesale_rate_col`, `selling_rate_col`, `index_col` and the
collected `date_columns`.  Columns are identified by position; the label of a
date column is its (stripped) header text. -/
structure Cols where
  brandIdx : Option ℕ
  wholesaleIdx : Option ℕ
  sellingIdx : Option ℕ
  indexIdx : Option ℕ
  dates : List (String × ℕ)
deriving DecidableEq

/-- The three-letter month abbreviations of server.py line 149. -/
def monthAbbrevs : List String :=
  ["jan", "feb", "mar", "apr", "may", "jun", "jul", "aug", "sep", "oct", "nov", "dec"]

/-- One iteration of the header-classification loop (server.py lines 135-151):
a first-match-wins chain over the lower-cased, stripped header, with the
generic-rate fallback guarded by neither rate column being assigned yet. -/
def classifyStep (c : Cols) (i : ℕ) (col : String) : Cols :=
  let cl := pyStrip (pyLower col)
  if containsSub cl "brand" && containsSub cl "name" then
    { c with brandIdx := some i }
  else if containsSub cl "wholesale" && containsSub cl "rate" then
    { c with wholesaleIdx := some i }
  else if (containsSub cl "selling" || containsSub cl "retail") && containsSub cl "rate" then
    { c with sellingIdx := some i }
  else if containsSub cl "rate" && c.wholesaleIdx.isNone && c.sellingIdx.isNone then
    { c with sellingIdx := some i }
  else if (["index", "sl", "sr", "no", "id"].any fun t => containsSub cl t) && col.length ≤ 10 then
    { c with indexIdx := some i }
  else if monthAbbrevs.any (fun m => containsSub cl m) then
    { c with dates := c.dates ++ [(col, i)] }
  else c

/-- Fold of `classifyStep` over the headers with their positions. -/
def classifyAux (c : Cols) (i : ℕ) : List String → Cols
  | [] => c
  | h :: rest => classifyAux (classifyStep c i h) (i + 1) rest

/-- Column classification of the (already stripped) header row,
server.py lines 128-151. -/
def classifyColumns (headers : List String) : Cols :=
  classifyAux ⟨none, none, none, none, []⟩ 0 headers

/-- Row filter on the brand cell, server.py lines 166-167: drop missing brand
cells and rows whose brand text contains "total"/"sum" or equals one of the
bare header labels, case-insensitively. -/
def badBrand (s : String) : Bool :=
  let l := pyLower s
  containsSub l "total" || containsSub l "sum" ||
    l == "brand name" || l == "name" || l == "brand"

/-- A row survives the filter of server.py lines 166-167. -/
def keepRow (bi : ℕ) (row : List Cell) : Bool :=
  (getCell row bi).notna && !(badBrand (cellStr (getCell row bi)))

/-- One product record as assembled by `parse_tabular_format`
(the `brand_data` dictionary, server.py lines 363-387). -/
structure LiquorRecord where
  brand_name : String
  index_number : ℤ
  wholesale_rate : ℚ
  selling_rate : ℚ
  rate : ℚ
  D1_date : String
  D1_stock : ℚ
  DL_date : String
  DL_stock : ℚ
  current_stock_qty : ℤ
  total_sales_qty : ℚ
  avg_daily_sales_qty : ℚ
  monthly_sales_qty : ℚ
  monthly_sale_value : ℚ
  monthly_sale_qty : ℤ
  stock_value_today : ℚ
  stock_ratio : ℚ
  stock_available_days : ℚ
  avg_daily_sale : ℚ
  stock_value_before : ℚ
  daily_sales : List (String × ℚ)
  days_analyzed : ℕ
deriving DecidableEq

/-- The view of one filtered row taken by STEP 1 of `parse_tabular_format`
(server.py lines 180-195): the stripped brand text and, for each sorted date
column, the reading used there — `none` for a `pd.isna` cell, otherwise the
value of `float(cell)` with a failed parse stored as 0 (lines 187-192). -/
structure S1Row where
  brand : String
  readings : List (Option ℚ)
deriving DecidableEq

/-- The reading STEP 1 takes from a date cell (server.py lines 187-192). -/
def step1Read : Cell → Option ℚ
  | .na => none
  | .val _ v _ => some (v.getD 0)

/-- Build the STEP 1 view of a row (server.py lines 181, 186-192). -/
def step1Row (bi : ℕ) (dateCols : List (String × ℕ)) (row : List Cell) : S1Row :=
  ⟨pyStrip (cellStr (getCell row bi)),
   dateCols.map fun p => step1Read (getCell row p.2)⟩

/-- The skip test at server.py line 182: empty brand text, or text reading
`nan`/`none` case-insensitively. -/
def s1Skip (r : S1Row) : Bool :=
  r.brand == "" || pyLower r.brand == "nan" || pyLower r.brand == "none"

/-- Insert into a Python dict modelled as an association list: an existing key
is updated in place (keeping its position), a new key is appended. -/
def dictUpsert (k : String) (v : α) : List (String × α) → List (String × α)
  | [] => [(k, v)]
  | (k', v') :: rest =>
    if k' = k then (k, v) :: rest else (k', v') :: dictUpsert k v rest

/-- `all_brand_stock_data` of server.py lines 179-195: a dict keyed by the
brand text, skipping rows with a blank/`nan`/`none` brand and rows with no
present reading (`if brand_stock_data:`), later duplicate brands replacing
earlier entries. -/
def buildDict (rows : List S1Row) : List (String × List (Option ℚ)) :=
  rows.foldl
    (fun d r =>
      if s1Skip r || r.readings.all Option.isNone then d
      else dictUpsert r.brand r.readings d)
    []

/-- A readings list shows a strict increase from sorted-date position `i - 1`
to position `i`, both readings being present (server.py lines 205-210). -/
def rowHasInc (rs : List (Option ℚ)) (i : ℕ) : Bool :=
  match rs.getD (i - 1) none, rs.getD i none with
  | some p, some c => decide (p < c)
  | _, _ => false

/-- Some brand in the collected dict shows an increase on date pair `i`
(server.py lines 204-213). -/
def dictInc (d : List (String × List (Option ℚ))) (i : ℕ) : Bool :=
  d.any fun e => rowHasInc e.2 i

/-- Global anchor-date (`global_D1_date`) resolution, server.py lines
197-221: the first consecutive sorted-date pair on which any collected brand
shows a strict increase names the later label; otherwise the first label. -/
def findD1 (labels : List String) (d : List (String × List (Option ℚ))) : String :=
  match (List.range' 1 (labels.length - 1)).find? (fun i => dictInc d i) with
  | some i => labels.getD i ""
  | none => labels.headD ""

/-- The anchor-resolution algorithm exactly as the specification sentence for
claim C1 words it: for each consecutive sorted-date pair, scan every filtered
row in order and take the later label of the first pair at which some row's
two readings are present and strictly increase; otherwise the first label.
Stated from the spec for comparison with `findD1`. -/
def claimFindD1 (labels : List String) (rows : List S1Row) : String :=
  match (List.range' 1 (labels.length - 1)).find? (fun i => rows.any fun r => rowHasInc r.readings i) with
  | some i => labels.getD i ""
  | none => labels.headD ""

/-- Rate derivation of server.py lines 266-270: a zero wholesale rate with a
positive selling rate becomes 90% of the selling rate; a zero selling rate
with a positive wholesale rate becomes the wholesale rate divided by 0.9. -/
def resolveRates (w s : ℚ) : ℚ × ℚ :=
  if w = 0 ∧ 0 < s then (s * (9/10), s)
  else if s = 0 ∧ 0 < w then (w, w / (9/10))
  else (w, s)

/-- The value read from a rate column (server.py lines 250-264): `none` when
the column is absent, the cell is missing, or `float(...)` raises — all of
which leave the rate at its 0.0 initialisation. -/
def rateCell (ci : Option ℕ) (row : List Cell) : Option ℚ :=
  ci.bind fun i =>
    match getCell row i with
    | .na => none
    | .val _ v _ => v

/-- Accumulate the leading run of digits, Python-`int` style. -/
def digitsVal : List Char → ℕ → ℕ
  | [], acc => acc
  | c :: cs, acc => if c.isDigit then digitsVal cs (acc * 10 + (c.toNat - 48)) else acc

/-- First maximal run of digits in a string (the `re.search(r"\d+", ...)` of
server.py line 242). -/
def firstDigitRun : List Char → Option ℕ
  | [] => none
  | c :: cs => if c.isDigit then some (digitsVal (c :: cs) 0) else firstDigitRun cs

/-- Index resolution for a row, server.py lines 234-248: the first digit run
of the stripped index cell, else `int(float(cell))`, else the 1-based
original row position. -/
def resolveIndex (ii : Option ℕ) (origIdx : ℕ) (row : List Cell) : ℤ :=
  match ii with
  | none => (origIdx : ℤ) + 1
  | some i =>
    match getCell row i with
    | .na => (origIdx : ℤ) + 1
    | .val s v _ =>
      match firstDigitRun (pyStrip s).toList with
      | some n => (n : ℤ)
      | none =>
        match v with
        | some q => pyTrunc q
        | none => (origIdx : ℤ) + 1

/-- STEP 2 presence test for a date cell, server.py line 283:
`pd.notna(raw)` and `str(raw).strip() != ''`. -/
def present2 : Cell → Bool
  | .na => false
  | .val s _ _ => !(pyStrip s == "")

/-- STEP 2 coercion of a present date cell, server.py lines 285-293:
`float(raw)`, else `float(str(raw).replace(',', ''))`, else 0. -/
def step2Val : Cell → ℚ
  | .na => 0
  | .val _ v v2 => v.getD (v2.getD 0)

/-- The `D1_stock` fallback loop of server.py lines 326-331, entered with
`D1_stock == 0`: walk the label-sorted valid readings, remembering the value
at each label `<=` the anchor label, and stop at the first later label. -/
def lastLEloop (d1 : String) : List (String × ℚ) → ℚ → ℚ
  | [], acc => acc
  | (l, v) :: rest, acc => if strLeB l d1 then lastLEloop d1 rest v else acc

/-- The metric computation of server.py lines 314-387 for one retained row,
given the resolved inputs: stripped brand text, resolved index, the two raw
rate values (0 for absent/unparseable cells), the full `daily_stock_data`
assoc list, the label-sorted `valid_stock_values` (non-empty when called from
`processRow`; the empty case is totalised with a dummy last element), and the
global anchor label.  Every formula and clamp is the source's. -/
def mkRecord (brandName : String) (indexNum : ℤ) (w0 s0 : ℚ)
    (daily : List (String × ℚ)) (valid : List (String × ℚ)) (d1 : String) :
    LiquorRecord :=
  let rates := resolveRates w0 s0
  let w := rates.1
  let s := rates.2
  let d1s0 := (daily.lookup d1).getD 0
  let d1s := if d1s0 = 0 then lastLEloop d1 valid 0 else d1s0
  let dl := valid.getLastD ("", 0)
  let total := max 0 (d1s - dl.2)
  let days : ℕ := max 1 (valid.length - 1)
  let avg := total / (days : ℚ)
  let mq := avg * 24
  let msv := mq * s
  let csv := dl.2 * s
  let ratio := if 0 < msv then csv / max 1 msv else 0
  let sad := if 0 < avg then dl.2 / max (1/10) avg else 999
  { brand_name := brandName
    index_number := indexNum
    wholesale_rate := w
    selling_rate := s
    rate := s
    D1_date := d1
    D1_stock := d1s
    DL_date := dl.1
    DL_stock := dl.2
    current_stock_qty := pyTrunc (max 0 dl.2)
    total_sales_qty := total
    avg_daily_sales_qty := avg
    monthly_sales_qty := mq
    monthly_sale_value := msv
    monthly_sale_qty := pyTrunc (max 0 mq)
    stock_value_today := csv
    stock_ratio := ratio
    stock_available_days := min 999 (max 0 sad)
    avg_daily_sale := msv / 30
    stock_value_before := d1s * s
    daily_sales := daily
    days_analyzed := days }

/-- STEP 2 of `parse_tabular_format` for one row (server.py lines 228-394):
skip blank/`nan`/`none` brands and rows with no valid reading, otherwise
assemble the record via `mkRecord`.  `origIdx` is the pandas index of the row
(its position in the unfiltered frame). -/
def processRow (d1 : String) (dateCols : List (String × ℕ)) (cols : Cols)
    (bi : ℕ) (origIdx : ℕ) (row : List Cell) : Option LiquorRecord :=
  let brandName := pyStrip (cellStr (getCell row bi))
  if brandName == "" || pyLower brandName == "nan" || pyLower brandName == "none" then none
  else
    let indexNum := resolveIndex cols.indexIdx origIdx row
    let w0 := (rateCell cols.wholesaleIdx row).getD 0
    let s0 := (rateCell cols.sellingIdx row).getD 0
    let daily := dateCols.map fun p =>
      (p.1, if present2 (getCell row p.2) then step2Val (getCell row p.2) else 0)
    let valid := dateCols.filterMap fun p =>
      let c := getCell row p.2
      if present2 c && decide (0 ≤ step2Val c) then some (p.1, step2Val c) else none
    if valid.isEmpty then none
    else some (mkRecord brandName indexNum w0 s0 daily
      (sortWithLe (fun p q => strLeB p.1 q.1) valid) d1)

/-- `parse_tabular_format` (server.py lines 120-401) on a table given as a
(possibly untrimmed) header row and positional rows of cells: empty check,
header stripping and classification, brand/date column checks, row filter,
global anchor resolution, per-row reconstruction, and the no-valid-rows
check. -/
def parse_tabular_format (headers : List String) (rows : List (List Cell)) :
    Except ParseError (List LiquorRecord) :=
  if rows.isEmpty then Except.error ParseError.emptyData
  else
    let theaders := headers.map pyStrip
    let cols := classifyColumns theaders
    match cols.brandIdx with
    | none => Except.error ParseError.missingBrandColumn
    | some bi =>
      if cols.dates.isEmpty then Except.error ParseError.missingDateColumns
      else
        let dateCols := sortByLabel cols.dates
        let labels := dateCols.map Prod.fst
        let filtered := (rows.enum).filter fun p => keepRow bi p.2
        if filtered.isEmpty then Except.error ParseError.noValidBrandRows
        else
          let s1 := filtered.map fun p => step1Row bi dateCols p.2
          let d1 := findD1 labels (buildDict s1)
          let recs := filtered.filterMap fun p => processRow d1 dateCols cols bi p.1 p.2
          if recs.isEmpty then Except.error ParseError.noValidRows
          else Except.ok recs

/-- The format test of `parse_excel_data` (server.py lines 93 and 104): at
least three columns, and some header whose lower-cased, stripped text is one
of the brand-identifying terms — then the table is routed to
`parse_tabular_format`, otherwise to the headerless-list path. -/
def looksTabular (headers : List String) : Prop :=
  3 ≤ headers.length ∧
    ∃ h ∈ headers,
      (pyStrip (pyLower h)) ∈ (["brand name", "brand_name", "product", "name"] : List String)

instance (headers : List String) : Decidable (looksTabular headers) := by
  unfold looksTabular
  infer_instance

/-- One flattened, non-blank cell of the headerless-list path, tagged with
the outcome of the classification at server.py lines 415-421: `numC s q` is a
cell whose text `s` parses with Python `float` to `q` (the text is kept,
since `numerical_data` stores strings); `nameC s` is a cell on which `float`
raises and whose digits-and-dots test fails, so it becomes a brand name;
`skipC s` is a cell on which `float` raises but `s.replace('.', '')` is all
digits, so it is dropped. -/
inductive FlatCell where
  | numC (s : String) (q : ℚ)
  | nameC (s : String)
  | skipC (s : String)
deriving DecidableEq

/-- The numeric cells, as (text, value) pairs, in flattening order. -/
def FlatCell.num? : FlatCell → Option (String × ℚ)
  | .numC s q => some (s, q)
  | _ => none

/-- The brand-name cells, in flattening order. -/
def FlatCell.name? : FlatCell → Option String
  | .nameC s => some s
  | _ => none

/-- One record of the headerless-list path (server.py lines 444-457). -/
structure ListRecord where
  brand_name : String
  product_id : String
  rate : ℚ
  current_stock_qty : ℤ
  stock_value_today : ℚ
  monthly_sale_value : ℚ
  stock_available_days : ℚ
  stock_ratio : ℚ
  monthly_sale_qty : ℤ
  avg_daily_sale : ℚ
  stock_value_before : ℚ
deriving DecidableEq

/-- Build the `i`-th record of the headerless-list path (server.py lines
435-457), consuming numeric cells in groups of three as
`(product_id, rate, quantity)`, with the out-of-range defaults of lines
438-440.  `//` is Python floor division, hence `Int.fdiv`. -/
def mkListRecord (brand : String) (nums : List (String × ℚ)) (i : ℕ) : ListRecord :=
  let pid := (nums.getD (i * 3) ("", 0)).1
  let rate := if i * 3 + 1 < nums.length then (nums.getD (i * 3 + 1) ("", 0)).2 else 100
  let qty : ℤ := if i * 3 + 2 < nums.length then pyTrunc (nums.getD (i * 3 + 2) ("", 0)).2 else 0
  let est : ℚ := ((max 1 (Int.fdiv qty 4) : ℤ) : ℚ) * rate
  { brand_name := brand
    product_id := pid
    rate := rate
    current_stock_qty := qty
    stock_value_today := rate * (qty : ℚ)
    monthly_sale_value := est
    stock_available_days :=
      if 0 < qty then ((max 1 (Int.fdiv qty (max 1 (Int.fdiv qty 30))) : ℤ) : ℚ) else 0
    stock_ratio := (rate * (qty : ℚ)) / max 1 est
    monthly_sale_qty := max 1 (Int.fdiv qty 4)
    avg_daily_sale := est / 30
    stock_value_before := rate * (qty : ℚ) * (11/10) }

/-- `parse_list_format` (server.py lines 403-465) on the flattened non-blank
cells of a non-empty frame (the `df.empty` check of line 405 precedes the
flattening and is not reachable with a non-empty cell list): classification
into brand names and numeric data, the no-brand and insufficient-data checks,
and the grouping loop of lines 435-459. -/
def parse_list_format (flat : List FlatCell) : Except ParseError (List ListRecord) :=
  let nums := flat.filterMap FlatCell.num?
  let brands := flat.filterMap FlatCell.name?
  if brands.isEmpty then Except.error ParseError.noBrandNames
  else if nums.length < brands.length * 2 then Except.error ParseError.insufficientData
  else
    Except.ok ((List.range brands.length).filterMap fun i =>
      if i * 3 < nums.length then some (mkListRecord (brands.getD i "") nums i) else none)

/-- One entry of the overstocked list (server.py lines 480-487). -/
structure OverstockEntry where
  brand_name : String
  current_stock_value : ℚ
  monthly_avg_sale : ℚ
  threshold : ℚ
  overstock_value : ℚ
  stock_ratio : ℚ
deriving DecidableEq

/-- `calculate_overstocking` (server.py lines 467-489): flag every record
whose current stock value strictly exceeds `monthly_sale_value * multiplier`
with a positive monthly sale value, and sort the entries by
`overstock_value` descending. -/
def calculate_overstocking (data : List LiquorRecord) (multiplier : ℚ) :
    List OverstockEntry :=
  sortWithLe (fun a b => decide (b.overstock_value ≤ a.overstock_value))
    (data.filterMap fun item =>
      let threshold := item.monthly_sale_value * multiplier
      if decide (threshold < item.stock_value_today) && decide (0 < item.monthly_sale_value) then
        some
          { brand_name := item.brand_name
            current_stock_value := item.stock_value_today
            monthly_avg_sale := item.monthly_sale_value
            threshold := threshold
            overstock_value := item.stock_value_today - threshold
            stock_ratio := item.stock_ratio }
      else none)

/-- Urgency levels of the demand recommender (server.py lines 743-750). -/
inductive Urgency where
  | HIGH
  | MEDIUM
  | LOW
  | NONE
deriving DecidableEq

/-- Urgency from days of stock remaining (server.py lines 743-750). -/
def urgencyOf (stockDays : ℚ) : Urgency :=
  if stockDays < 10 then Urgency.HIGH
  else if stockDays < 20 then Urgency.MEDIUM
  else if stockDays < 30 then Urgency.LOW
  else Urgency.NONE

/-- One demand recommendation (the `DemandRecommendation` model,
server.py lines 76-82). -/
structure DemandRec where
  brand_name : String
  selling_rate : ℚ
  wholesale_rate : ℚ
  current_stock_qty : ℤ
  recommended_qty : ℤ
  urgency_level : Urgency
deriving DecidableEq

/-- The per-record body of `get_demand_recommendations` (server.py lines
725-761): only records with positive average daily sales are considered;
`target_qty = int(avg * 30)`; the inclusion test uses the uncapped
`recommended_qty`, while the emitted quantity is capped at twice the current
stock. -/
def recommendOne (r : LiquorRecord) : Option DemandRec :=
  if 0 < r.avg_daily_sales_qty then
    let target : ℤ := pyTrunc (r.avg_daily_sales_qty * 30)
    let rec0 : ℤ := max 0 (target - r.current_stock_qty)
    let urg := urgencyOf r.stock_available_days
    if urg ≠ Urgency.NONE ∨ 5 < rec0 then
      some
        { brand_name := r.brand_name
          selling_rate := r.selling_rate
          wholesale_rate := pyRound2 r.wholesale_rate
          current_stock_qty := r.current_stock_qty
          recommended_qty := min rec0 (r.current_stock_qty * 2)
          urgency_level := urg }
    else none
  else none

/-- The recommended quantity exactly as the specification sentence for claim
C8 words it: `max(0, avg_daily_sales_qty * 30 - current_stock_qty)` capped at
`2 * current_stock_qty`, in exact arithmetic.  Stated from the spec for
comparison with `recommendOne`. -/
def claimRecommendedQty (r : LiquorRecord) : ℚ :=
  min (max 0 (r.avg_daily_sales_qty * 30 - (r.current_stock_qty : ℚ)))
    (2 * (r.current_stock_qty : ℚ))

/-- The inclusion condition exactly as the specification sentence for claim
C8 words it: urgency not NONE, or the (capped) recommended quantity exceeds
5.  Stated from the spec for comparison with `recommendOne`. -/
def claimIncludedC8 (r : LiquorRecord) : Prop :=
  urgencyOf r.stock_available_days ≠ Urgency.NONE ∨ 5 < claimRecommendedQty r

instance (r : LiquorRecord) : Decidable (claimIncludedC8 r) := by
  unfold claimIncludedC8
  infer_instance

/-- A write operation the upload handler issues against the repository
(`db.liquor_data`): `delete_many({})` or `insert_many(batch)`
(server.py lines 524 and 533). -/
inductive RepoOp (α : Type) where
  | deleteAll
  | insertMany (batch : List α)
deriving DecidableEq

/-- Effect of one repository operation on the stored batch. -/
def applyOp (s : List α) : RepoOp α → List α
  | .deleteAll => []
  | .insertMany b => s ++ b

/-- The repository operations `upload_liquor_data` issues (server.py lines
517-533): none when parsing raised or produced no data, otherwise a
`delete_many` followed by an `insert_many` of the new batch. -/
def uploadOps : Except ParseError (List α) → List (RepoOp α)
  | .error _ => []
  | .ok data => if data.isEmpty then [] else [RepoOp.deleteAll, RepoOp.insertMany data]

/-- Run a sequence of repository operations. -/
def runOps (s : List α) (ops : List (RepoOp α)) : List α :=
  ops.foldl applyOp s

/-- Every state of the repository a concurrent reader can observe while the
operations run: the state before each operation and the final state.  Each
`await` of server.py lines 524 and 533 is a suspension point at which a
reader's `find()` may execute. -/
def repoStates (s : List α) : List (RepoOp α) → List (List α)
  | [] => [s]
  | op :: rest => s :: repoStates (applyOp s op) rest

/-- The error response of `upload_liquor_data` (server.py lines 496-548):
the parse error when parsing raised, the no-valid-data error on an empty
parse result, and success otherwise. -/
def uploadResponse : Except ParseError (List α) → Option ParseError
  | .error e => some e
  | .ok data => if data.isEmpty then some ParseError.noValidData else none

/-- `true` exactly on a successful parse result. -/
def exceptOk : Except ε α → Bool
  | .ok _ => true
  | .error _ => false

/- Helper lemmas about the sorting and filtering combinators. -/

theorem length_insertSorted (le : α → α → Bool) (x : α) (l : List α) :
    (insertSorted le x l).length = l.length + 1 := by
  induction l with
  | nil => rfl
  | cons y ys ih =>
    unfold insertSorted
    split
    · simp only [List.length_cons, ih]
    · simp only [List.length_cons]

theorem mem_insertSorted (le : α → α → Bool) (x a : α) (l : List α) :
    a ∈ insertSorted le x l ↔ a = x ∨ a ∈ l := by
  induction l with
  | nil => simp [insertSorted]
  | cons y ys ih =>
    unfold insertSorted
    split
    · simp only [List.mem_cons, ih]
      tauto
    · simp only [List.mem_cons]

theorem length_foldl_insertSorted (le : α → α → Bool) (l acc : List α) :
    (l.foldl (fun acc x => insertSorted le x acc) acc).length = acc.length + l.length := by
  induction l generalizing acc with
  | nil => simp
  | cons x xs ih =>
    simp only [List.foldl_cons, List.length_cons]
    rw [ih, length_insertSorted]
    omega

theorem length_sortWithLe (le : α → α → Bool) (l : List α) :
    (sortWithLe le l).length = l.length := by
  unfold sortWithLe
  rw [length_foldl_insertSorted]
  simp

theorem mem_foldl_insertSorted (le : α → α → Bool) (l acc : List α) (a : α) :
    a ∈ l.foldl (fun acc x => insertSorted le x acc) acc ↔ a ∈ acc ∨ a ∈ l := by
  induction l generalizing acc with
  | nil => simp
  | cons x xs ih =>
    simp only [List.foldl_cons, ih, mem_insertSorted, List.mem_cons]
    tauto

theorem mem_sortWithLe (le : α → α → Bool) (l : List α) (a : α) :
    a ∈ sortWithLe le l ↔ a ∈ l := by
  unfold sortWithLe
  rw [mem_foldl_insertSorted]
  simp

theorem length_filterMap_mono (f g : α → Option β) (l : List α)
    (h : ∀ a, (f a).isSome = true → (g a).isSome = true) :
    (l.filterMap f).length ≤ (l.filterMap g).length := by
  induction l with
  | nil => simp
  | cons x xs ih =>
    rcases hf : f x with _ | b
    · rcases hg : g x with _ | c
      · simpa [List.filterMap_cons, hf, hg] using ih
      · simp only [List.filterMap_cons, hf, hg, List.length_cons]
        omega
    · have : (g x).isSome = true := h x (by simp [hf])
      rcases hg : g x with _ | c
      · rw [hg] at this
        simp at this
      · simp only [List.filterMap_cons, hf, hg, List.length_cons]
        omega

/-- Claim C2.  Batch replacement is not atomic: the upload handler issues a
`delete_many` and a separate `insert_many` (server.py lines 524 and 533), so
with an old batch `[0]` and a new batch `[1]` the observable repository
states are `[[0], [], [1]]` — a reader scheduled between the two awaits
observes the empty middle state, which is neither the old nor the new batch,
contradicting the claimed atomicity. -/
theorem upload_replacement_not_atomic :
    repoStates [0] (uploadOps (Except.ok [1] : Except ParseError (List ℕ))) = [[0], [], [1]] ∧
      ([] : List ℕ) ∈ repoStates [0] (uploadOps (Except.ok [1] : Except ParseError (List ℕ))) ∧
      ([] : List ℕ) ≠ [0] ∧ ([] : List ℕ) ≠ [1] := by
  decide

/-- Claim C9.  When parsing fails with any error, the upload handler issues
no repository operation at all, the stored batch is therefore unchanged, and
the error is returned to the client: deletion of the old batch happens only
after parsing has succeeded (server.py lines 517-533, where
`parse_excel_data` raises before `delete_many` is reached). -/
theorem parse_failure_preserves_repo :
    ∀ (α : Type) (e : ParseError) (repo : List α),
      uploadOps (Except.error e : Except ParseError (List α)) = [] ∧
        runOps repo (uploadOps (Except.error e : Except ParseError (List α))) = repo ∧
        uploadResponse (Except.error e : Except ParseError (List α)) = some e := by
  intro α e repo
  exact ⟨rfl, rfl, rfl⟩

/-- Claim C5.  The number of products flagged overstocked is monotone
non-increasing in the multiplier: for `m1 < m2`, every record flagged under
`m2` (`stock_value_today > monthly_sale_value * m2` with a positive monthly
sale value) is also flagged under `m1`, so the count under `m1` is at least
the count under `m2` (server.py lines 467-489). -/
theorem overstock_count_antitone (data : List LiquorRecord) (m1 m2 : ℚ) (h : m1 < m2) :
    (calculate_overstocking data m2).length ≤ (calculate_overstocking data m1).length := by
  unfold calculate_overstocking
  rw [length_sortWithLe, length_sortWithLe]
  apply length_filterMap_mono
  intro a ha
  dsimp only at ha ⊢
  by_cases hc : (decide (a.monthly_sale_value * m2 < a.stock_value_today) &&
      decide (0 < a.monthly_sale_value)) = true
  · rcases Bool.and_eq_true_iff.mp hc with ⟨h1, h2⟩
    have hlt := of_decide_eq_true h1
    have hpos := of_decide_eq_true h2
    have hcond : (decide (a.monthly_sale_value * m1 < a.stock_value_today) &&
        decide (0 < a.monthly_sale_value)) = true :=
      Bool.and_eq_true_iff.mpr
        ⟨decide_eq_true (lt_trans (mul_lt_mul_of_pos_left h hpos) hlt), decide_eq_true hpos⟩
    rw [if_pos hcond]
    rfl
  · rw [if_neg hc] at ha
    simp at ha

/-- Witness for `overstock_count_antitone` at the empty batch and the
multipliers 1 and 2. -/
theorem overstock_count_antitone_witness :
    (calculate_overstocking [] 2).length ≤ (calculate_overstocking [] 1).length :=
  overstock_count_antitone [] 1 2 (by norm_num)

/-- Claim C4.  Whenever `monthly_sale_value <= 0`, the record's `stock_ratio`
is 0 regardless of its stock value (the guard at server.py line 355), and
every entry of the overstocked list has a strictly positive
`monthly_avg_sale` (the `monthly_avg_sale > 0` conjunct at line 478), so a
product with non-positive monthly sales is never flagged for any
multiplier. -/
theorem zero_monthly_sales_ratio_and_overstock :
    (∀ (bn : String) (ix : ℤ) (w0 s0 : ℚ) (daily valid : List (String × ℚ)) (d1 : String),
        (mkRecord bn ix w0 s0 daily valid d1).monthly_sale_value ≤ 0 →
          (mkRecord bn ix w0 s0 daily valid d1).stock_ratio = 0) ∧
      (∀ (data : List LiquorRecord) (m : ℚ) (e : OverstockEntry),
        e ∈ calculate_overstocking data m → 0 < e.monthly_avg_sale) := by
  constructor
  · intro bn ix w0 s0 daily valid d1 h
    simp only [mkRecord] at h ⊢
    rw [if_neg (not_lt.mpr h)]
  · intro data m e he
    unfold calculate_overstocking at he
    rw [mem_sortWithLe] at he
    rcases List.mem_filterMap.mp he with ⟨a, _, hfa⟩
    dsimp only at hfa
    by_cases hc :
        (decide (a.monthly_sale_value * m < a.stock_value_today) &&
          decide (0 < a.monthly_sale_value)) = true
    · rw [if_pos hc] at hfa
      cases hfa
      exact of_decide_eq_true (Bool.and_eq_true_iff.mp hc).2
    · rw [if_neg hc] at hfa
      cases hfa

/-- Witness for `zero_monthly_sales_ratio_and_overstock`: a record with no
sales has stock ratio 0, and the single entry produced by an overstocked
record has a positive monthly average sale. -/
theorem zero_monthly_sales_ratio_and_overstock_witness :
    (mkRecord "X" 1 0 0 [("a", 5)] [("a", 5)] "a").stock_ratio = 0 ∧
      0 < (OverstockEntry.mk "A" 100 10 30 70 0).monthly_avg_sale :=
  ⟨zero_monthly_sales_ratio_and_overstock.1 "X" 1 0 0 [("a", 5)] [("a", 5)] "a"
      (by norm_num [mkRecord, resolveRates, lastLEloop]),
    zero_monthly_sales_ratio_and_overstock.2
      [{ brand_name := "A", index_number := 1, wholesale_rate := 9, selling_rate := 10, rate := 10,
         D1_date := "a", D1_stock := 10, DL_date := "a", DL_stock := 10, current_stock_qty := 10,
         total_sales_qty := 0, avg_daily_sales_qty := 0, monthly_sales_qty := 0,
         monthly_sale_value := 10, monthly_sale_qty := 0, stock_value_today := 100,
         stock_ratio := 0, stock_available_days := 999, avg_daily_sale := 0,
         stock_value_before := 100, daily_sales := [], days_analyzed := 1 }] 3
      (OverstockEntry.mk "A" 100 10 30 70 0)
      (by
        unfold calculate_overstocking
        rw [mem_sortWithLe]
        refine List.mem_filterMap.mpr ⟨_, List.mem_singleton.mpr rfl, ?_⟩
        norm_num)⟩

/-- Claim C6.  A record with `avg_daily_sales_qty = 0` gets the sentinel 999
as its stock-available days (the `else 999` at server.py line 358), and the
stored value is always clamped into `[0, 999]`
(`min(999, max(0, ...))` at line 382). -/
theorem stock_days_sentinel_and_clamped :
    ∀ (bn : String) (ix : ℤ) (w0 s0 : ℚ) (daily valid : List (String × ℚ)) (d1 : String),
      ((mkRecord bn ix w0 s0 daily valid d1).avg_daily_sales_qty = 0 →
          (mkRecord bn ix w0 s0 daily valid d1).stock_available_days = 999) ∧
        0 ≤ (mkRecord bn ix w0 s0 daily valid d1).stock_available_days ∧
        (mkRecord bn ix w0 s0 daily valid d1).stock_available_days ≤ 999 := by
  intro bn ix w0 s0 daily valid d1
  refine ⟨?_, ?_, ?_⟩
  · intro h
    simp only [mkRecord] at h ⊢
    rw [if_neg (by rw [h]; exact lt_irrefl 0)]
    norm_num
  · simp only [mkRecord]
    exact le_min (by norm_num) (le_max_left 0 _)
  · simp only [mkRecord]
    exact min_le_left _ _

/-- Witness for `stock_days_sentinel_and_clamped` at a record with no sales:
the stored stock-available days equal the sentinel 999. -/
theorem stock_days_sentinel_and_clamped_witness :
    (mkRecord "X" 1 0 0 [("a", 7)] [("a", 7)] "a").stock_available_days = 999 :=
  (stock_days_sentinel_and_clamped "X" 1 0 0 [("a", 7)] [("a", 7)] "a").1
    (by norm_num [mkRecord, resolveRates, lastLEloop])

/-- A flattened headerless input with one brand name and two numeric cells. -/
def flatC3 : List FlatCell := [FlatCell.nameC "A", FlatCell.numC "1" 1, FlatCell.numC "2" 2]

/-- Counterexample to claim C3.  With one brand name and two numeric cells
there are fewer than `3 * brand_count` numeric cells, so the claim requires
the insufficient-data failure — but the check at server.py line 426 only
demands `2 * brand_count` numeric cells, so the parse succeeds. -/
theorem list_threshold_counterexample :
    (flatC3.filterMap FlatCell.name?).length = 1 ∧
      (flatC3.filterMap FlatCell.num?).length = 2 ∧
      2 < 3 * 1 ∧
      exceptOk (parse_list_format flatC3) = true := by
  decide

/-- Claim C3 as amended.  On the headerless-list path with at least one brand
name, the parse fails with the insufficient-data error exactly when fewer
than `2 * brand_count` numeric cells exist (server.py lines 426-430; the
error message itself announces `len(brand_names) * 2`). -/
theorem list_insufficient_iff :
    ∀ flat : List FlatCell,
      flat.filterMap FlatCell.name? ≠ [] →
        (parse_list_format flat = Except.error ParseError.insufficientData ↔
          (flat.filterMap FlatCell.num?).length < 2 * (flat.filterMap FlatCell.name?).length) := by
  intro flat hb
  unfold parse_list_format
  dsimp only
  rw [if_neg (fun hemp => hb (List.isEmpty_iff.mp hemp))]
  split_ifs with hlt
  · constructor
    · intro _
      omega
    · intro _
      rfl
  · constructor
    · intro hcontra
      exact hcontra.elim
    · intro hcontra
      exact absurd hcontra (by omega)

/-- Witness for `list_insufficient_iff`: one brand name and a single numeric
cell trigger the insufficient-data failure. -/
theorem list_insufficient_iff_witness :
    parse_list_format [FlatCell.nameC "B", FlatCell.numC "7" 7] =
      Except.error ParseError.insufficientData :=
  (list_insufficient_iff [FlatCell.nameC "B", FlatCell.numC "7" 7] (by decide)).mpr (by decide)

/-- Column assignment of a sheet with a brand column at position 0, a
wholesale-rate column at position 1 and one date column at position 2. -/
def colsC7 : Cols := ⟨some 0, some 1, none, none, [("01-jan", 2)]⟩

/-- A row whose wholesale-rate cell is present and holds the value 0, with no
selling-rate column in the sheet. -/
def rowC7 : List Cell :=
  [Cell.val "X" none none, Cell.val "0" (some 0) (some 0), Cell.val "5" (some 5) (some 5)]

/-- Counterexample to claim C7.  The wholesale-rate cell of `rowC7` is
present in the source (it parses to 0.0), yet the produced record has both
`wholesale_rate` and `selling_rate` equal to zero: the derivation at
server.py lines 266-270 only fires when one rate is zero and the other is
strictly positive, so presence alone does not prevent the both-zero
outcome. -/
theorem rates_present_zero_counterexample :
    (rateCell colsC7.wholesaleIdx rowC7).isSome = true ∧
      ((processRow "01-jan" [("01-jan", 2)] colsC7 0 0 rowC7).map
        (fun r => (r.wholesale_rate, r.selling_rate))) = some (0, 0) := by
  decide

/-- Claim C7 as amended.  The resolved rates are both zero exactly when both
source values resolve to zero (absent, unparseable, or literally 0); when
exactly one is zero and the other positive the missing one is derived by the
fixed 0.9 ratio; and when both are zero every rate-derived metric of the
record (`monthly_sale_value`, `stock_value_today`, `stock_value_before`) is
zero (server.py lines 250-270, 349, 352, 384). -/
theorem rates_resolution_amended :
    (∀ w s : ℚ, ((resolveRates w s).1 = 0 ∧ (resolveRates w s).2 = 0) ↔ (w = 0 ∧ s = 0)) ∧
      (∀ w s : ℚ, w = 0 → 0 < s → resolveRates w s = (s * (9/10), s)) ∧
      (∀ w s : ℚ, s = 0 → 0 < w → resolveRates w s = (w, w / (9/10))) ∧
      (∀ (bn : String) (ix : ℤ) (daily valid : List (String × ℚ)) (d1 : String),
        (mkRecord bn ix 0 0 daily valid d1).monthly_sale_value = 0 ∧
          (mkRecord bn ix 0 0 daily valid d1).stock_value_today = 0 ∧
          (mkRecord bn ix 0 0 daily valid d1).stock_value_before = 0) := by
  refine ⟨?_, ?_, ?_, ?_⟩
  · intro w s
    unfold resolveRates
    split_ifs with h1 h2
    · constructor
      · rintro ⟨_, hs0⟩
        have hs' : s = 0 := hs0
        exact absurd h1.2 (by rw [hs']; exact lt_irrefl 0)
      · rintro ⟨_, hs0⟩
        exact absurd (hs0 ▸ h1.2) (lt_irrefl 0)
    · constructor
      · rintro ⟨hw0, _⟩
        have hw' : w = 0 := hw0
        exact absurd h2.2 (by rw [hw']; exact lt_irrefl 0)
      · rintro ⟨hw0, _⟩
        exact absurd (hw0 ▸ h2.2) (lt_irrefl 0)
    · exact Iff.rfl
  · intro w s hw hs
    unfold resolveRates
    rw [if_pos ⟨hw, hs⟩]
  · intro w s hs hw
    unfold resolveRates
    rw [if_neg (fun hc => absurd (hc.1 ▸ hw) (lt_irrefl 0)), if_pos ⟨hs, hw⟩]
  · intro bn ix daily valid d1
    refine ⟨?_, ?_, ?_⟩ <;> simp [mkRecord, resolveRates]

/-- Witness for `rates_resolution_amended`: a missing wholesale rate next to
a selling rate of 5 is derived as 90% of it. -/
theorem rates_resolution_amended_witness :
    resolveRates 0 5 = (5 * (9/10), 5) :=
  rates_resolution_amended.2.1 0 5 rfl (by norm_num)

/-- A stored record with 1 unit of average daily sales, 2 units in stock and
50 days of stock cover. -/
def recC8 : LiquorRecord :=
  { brand_name := "B", index_number := 1, wholesale_rate := 9, selling_rate := 10, rate := 10,
    D1_date := "a", D1_stock := 0, DL_date := "a", DL_stock := 0, current_stock_qty := 2,
    total_sales_qty := 0, avg_daily_sales_qty := 1, monthly_sales_qty := 0, monthly_sale_value := 0,
    monthly_sale_qty := 0, stock_value_today := 0, stock_ratio := 0, stock_available_days := 50,
    avg_daily_sale := 0, stock_value_before := 0, daily_sales := [], days_analyzed := 1 }

/-- Counterexample to claim C8.  For `recC8` the claim-side recommended
quantity (capped at twice the stock) is `min(28, 4) = 4 ≤ 5` and the urgency
is NONE, so the claim says the product is excluded — but the code tests
`recommended_qty > 5` on the uncapped value 28 before capping (server.py
lines 740-759), so the record is emitted, with quantity 4. -/
theorem demand_inclusion_counterexample :
    (recommendOne recC8).isSome = true ∧
      ((recommendOne recC8).map DemandRec.recommended_qty) = some 4 ∧
      ¬ claimIncludedC8 recC8 := by
  refine ⟨?_, ?_, ?_⟩
  · norm_num [recommendOne, recC8, urgencyOf, pyTrunc, Rat.floor_def']
  · norm_num [recommendOne, recC8, urgencyOf, pyTrunc, Rat.floor_def']
  · norm_num [claimIncludedC8, claimRecommendedQty, recC8, urgencyOf]

/-- Claim C8 as amended.  A record is emitted by the demand recommender
exactly when its average daily sales are positive and either its urgency is
not NONE or the uncapped quantity `max(0, int(avg * 30) - stock)` exceeds 5;
the emitted quantity is that uncapped value capped at twice the current
stock.  (The target is truncated to an integer, and the inclusion test uses
the uncapped quantity; server.py lines 734-759.) -/
theorem demand_amended :
    ∀ r : LiquorRecord,
      ((recommendOne r).isSome = true ↔
        (0 < r.avg_daily_sales_qty ∧
          (urgencyOf r.stock_available_days ≠ Urgency.NONE ∨
            5 < max 0 (pyTrunc (r.avg_daily_sales_qty * 30) - r.current_stock_qty)))) ∧
      (∀ d, recommendOne r = some d →
        d.recommended_qty =
          min (max 0 (pyTrunc (r.avg_daily_sales_qty * 30) - r.current_stock_qty))
            (r.current_stock_qty * 2)) := by
  intro r
  constructor
  · unfold recommendOne
    dsimp only
    split_ifs with h1 h2
    · exact iff_of_true rfl ⟨h1, h2⟩
    · exact iff_of_false (by simp) (fun hc => h2 hc.2)
    · exact iff_of_false (by simp) (fun hc => h1 hc.1)
  · intro d hd
    unfold recommendOne at hd
    dsimp only at hd
    split_ifs at hd
    cases hd
    rfl

/-- Witness for `demand_amended`: the quantity emitted for `recC8` is the
uncapped 28 capped at twice the stock, i.e. 4. -/
theorem demand_amended_witness :
    (DemandRec.mk "B" 10 9 2 4 Urgency.NONE).recommended_qty =
      min (max 0 (pyTrunc (recC8.avg_daily_sales_qty * 30) - recC8.current_stock_qty))
        (recC8.current_stock_qty * 2) :=
  (demand_amended recC8).2 (DemandRec.mk "B" 10 9 2 4 Urgency.NONE)
    (by norm_num [recommendOne, recC8, urgencyOf, pyTrunc, Rat.floor_def', pyRound2, roundHalfEven])

theorem classifyStep_brand_none (c : Cols) (i : ℕ) (col : String)
    (h : ¬(containsSub (pyStrip (pyLower col)) "brand" = true ∧
        containsSub (pyStrip (pyLower col)) "name" = true))
    (hc : c.brandIdx = none) : (classifyStep c i col).brandIdx = none := by
  unfold classifyStep
  dsimp only
  split_ifs with h1 h2 h3 h4 h5 h6
  · exact absurd (Bool.and_eq_true_iff.mp h1) h
  all_goals exact hc

theorem classifyAux_brand_none (hs : List String) :
    ∀ (i : ℕ) (c : Cols), c.brandIdx = none →
      (∀ h ∈ hs, ¬(containsSub (pyStrip (pyLower h)) "brand" = true ∧
          containsSub (pyStrip (pyLower h)) "name" = true)) →
      (classifyAux c i hs).brandIdx = none := by
  induction hs with
  | nil => intro i c hc _; exact hc
  | cons h rest ih =>
    intro i c hc hall
    unfold classifyAux
    exact ih (i + 1) _ (classifyStep_brand_none c i h (hall h (List.mem_cons_self h rest)) hc)
      (fun h' hm => hall h' (List.mem_cons_of_mem h hm))

theorem parse_tabular_missing_brand (headers : List String) (rows : List (List Cell))
    (hrows : rows ≠ [])
    (hb : (classifyColumns (headers.map pyStrip)).brandIdx = none) :
    parse_tabular_format headers rows = Except.error ParseError.missingBrandColumn := by
  unfold parse_tabular_format
  rw [if_neg (fun hemp => hrows (List.isEmpty_iff.mp hemp))]
  dsimp only
  split
  · rfl
  · rename_i bi heq
    rw [hb] at heq
    cases heq

/-- Counterexample to claim C10.  A table with three columns whose only
product-identifying header is "product" but with no data rows is routed to
the tabular parser, which fails with the empty-dataset error of server.py
line 123 — not the missing-brand-column error the claim requires. -/
theorem product_header_counterexample :
    looksTabular ["product", "x", "y"] ∧
      parse_tabular_format ["product", "x", "y"] [] = Except.error ParseError.emptyData ∧
      ParseError.emptyData ≠ ParseError.missingBrandColumn :=
  ⟨by decide, rfl, by decide⟩

/-- Claim C10 as amended.  For every table with at least one data row and at
least three columns, some header equal (lower-cased, stripped) to "product"
or "name", and no header containing both "brand" and "name", the format test
of `parse_excel_data` routes the table to `parse_tabular_format`, which fails
with the missing-brand-column error of server.py line 160, and the upload as
a whole is rejected with that error. -/
theorem product_header_rejected :
    ∀ (headers : List String) (rows : List (List Cell)),
      rows ≠ [] → 3 ≤ headers.length →
      (∃ h ∈ headers, pyStrip (pyLower h) = "product" ∨ pyStrip (pyLower h) = "name") →
      (∀ h ∈ headers, ¬(containsSub (pyStrip (pyLower (pyStrip h))) "brand" = true ∧
          containsSub (pyStrip (pyLower (pyStrip h))) "name" = true)) →
      looksTabular headers ∧
        parse_tabular_format headers rows = Except.error ParseError.missingBrandColumn ∧
        uploadResponse (Except.error ParseError.missingBrandColumn :
            Except ParseError (List LiquorRecord)) = some ParseError.missingBrandColumn := by
  intro headers rows hrows hlen hprod hnob
  refine ⟨⟨hlen, ?_⟩, ?_, rfl⟩
  · rcases hprod with ⟨h, hm, hc | hc⟩
    · exact ⟨h, hm, by rw [hc]; decide⟩
    · exact ⟨h, hm, by rw [hc]; decide⟩
  · apply parse_tabular_missing_brand headers rows hrows
    unfold classifyColumns
    apply classifyAux_brand_none
    · rfl
    · intro h' hm
      rcases List.mem_map.mp hm with ⟨h, hh, rfl⟩
      exact hnob h hh

/-- Witness for `product_header_rejected` at a concrete three-column table
with one all-missing row. -/
theorem product_header_rejected_witness :
    parse_tabular_format ["product", "x", "y"] [[Cell.na, Cell.na, Cell.na]] =
      Except.error ParseError.missingBrandColumn :=
  (product_header_rejected ["product", "x", "y"] [[Cell.na, Cell.na, Cell.na]]
    (by decide) (by decide) (by decide) (by decide)).2.1

theorem getD_none_of_all_none (rs : List (Option ℚ)) (j : ℕ)
    (h : rs.all Option.isNone = true) : rs.getD j none = none := by
  induction rs generalizing j with
  | nil => rfl
  | cons a as ih =>
    simp only [List.all_cons, Bool.and_eq_true] at h
    rcases h with ⟨ha, has⟩
    cases j with
    | zero => simpa [List.getD_cons_zero] using Option.isNone_iff_eq_none.mp ha
    | succ j => simpa [List.getD_cons_succ] using ih j has

theorem rowHasInc_false_of_all_none (rs : List (Option ℚ)) (i : ℕ)
    (h : rs.all Option.isNone = true) : rowHasInc rs i = false := by
  unfold rowHasInc
  rw [getD_none_of_all_none rs (i - 1) h, getD_none_of_all_none rs i h]

theorem dictUpsert_fresh (k : String) (v : α) (l : List (String × α))
    (h : ∀ p ∈ l, p.1 ≠ k) : dictUpsert k v l = l ++ [(k, v)] := by
  induction l with
  | nil => rfl
  | cons p rest ih =>
    unfold dictUpsert
    rw [if_neg (h p (List.mem_cons_self p rest)), ih (fun q hq => h q (List.mem_cons_of_mem p hq))]
    simp

theorem buildDict_foldl_eq (rows : List S1Row) :
    ∀ acc : List (String × List (Option ℚ)),
      (∀ r ∈ rows, s1Skip r = false) →
      (rows.map S1Row.brand).Nodup →
      (∀ p ∈ acc, ¬ p.1 ∈ rows.map S1Row.brand) →
      rows.foldl
          (fun d r =>
            if s1Skip r || r.readings.all Option.isNone then d
            else dictUpsert r.brand r.readings d) acc =
        acc ++ (rows.filter fun r => !(r.readings.all Option.isNone)).map
          (fun r => (r.brand, r.readings)) := by
  induction rows with
  | nil =>
    intro acc _ _ _
    simp
  | cons r rest ih =>
    intro acc hskip hnd hdisj
    have hsr : s1Skip r = false := hskip r (List.mem_cons_self r rest)
    have hnd' : (rest.map S1Row.brand).Nodup := by
      rw [List.map_cons] at hnd
      exact hnd.of_cons
    have hrb : ¬ r.brand ∈ rest.map S1Row.brand := by
      rw [List.map_cons] at hnd
      exact (List.nodup_cons.mp hnd).1
    simp only [List.foldl_cons]
    by_cases hall : r.readings.all Option.isNone = true
    · rw [show (if s1Skip r || r.readings.all Option.isNone then acc
          else dictUpsert r.brand r.readings acc) = acc from by rw [hsr, hall]; rfl]
      rw [ih acc (fun x hx => hskip x (List.mem_cons_of_mem r hx)) hnd'
        (fun p hp hm => hdisj p hp (by rw [List.map_cons]; exact List.mem_cons_of_mem _ hm))]
      rw [List.filter_cons, if_neg (by rw [hall]; simp)]
    · have hallf : r.readings.all Option.isNone = false := Bool.eq_false_iff.mpr hall
      rw [show (if s1Skip r || r.readings.all Option.isNone then acc
          else dictUpsert r.brand r.readings acc) = dictUpsert r.brand r.readings acc from by
        rw [hsr, hallf]; rfl]
      have hfresh : ∀ p ∈ acc, p.1 ≠ r.brand := fun p hp heq => by
        apply hdisj p hp
        rw [List.map_cons, heq]
        exact List.mem_cons_self _ _
      rw [dictUpsert_fresh r.brand r.readings acc hfresh]
      rw [ih (acc ++ [(r.brand, r.readings)])
        (fun x hx => hskip x (List.mem_cons_of_mem r hx)) hnd'
        (by
          intro p hp hm
          rcases List.mem_append.mp hp with hpa | hpn
          · exact hdisj p hpa (by rw [List.map_cons]; exact List.mem_cons_of_mem _ hm)
          · rcases List.mem_singleton.mp hpn with rfl
            exact hrb hm)]
      rw [List.filter_cons, if_pos (by rw [hallf]; simp)]
      simp [List.append_assoc]

theorem buildDict_eq_of_nodup (rows : List S1Row)
    (hskip : ∀ r ∈ rows, s1Skip r = false)
    (hnd : (rows.map S1Row.brand).Nodup) :
    buildDict rows =
      (rows.filter fun r => !(r.readings.all Option.isNone)).map
        (fun r => (r.brand, r.readings)) := by
  unfold buildDict
  simpa using buildDict_foldl_eq rows [] hskip hnd (by simp)

theorem any_filter_eq (p q : α → Bool) (l : List α) :
    (l.filter q).any p = l.any fun a => q a && p a := by
  induction l with
  | nil => rfl
  | cons a as ih =>
    rw [List.filter_cons]
    by_cases hq : q a = true
    · rw [if_pos hq]
      simp [List.any_cons, hq, ih]
    · rw [if_neg hq, List.any_cons, Bool.eq_false_iff.mpr hq]
      simp [ih]

theorem any_map_eq (f : α → β) (p : β → Bool) (l : List α) :
    (l.map f).any p = l.any fun a => p (f a) := by
  induction l with
  | nil => rfl
  | cons a as ih => simp [List.any_cons, ih]

theorem any_congr_eq (l : List α) (p q : α → Bool) (h : ∀ a ∈ l, p a = q a) :
    l.any p = l.any q := by
  induction l with
  | nil => rfl
  | cons a as ih =>
    rw [List.any_cons, List.any_cons, h a (List.mem_cons_self a as),
      ih (fun x hx => h x (List.mem_cons_of_mem a hx))]

theorem dictInc_eq_rows_any (rows : List S1Row) (i : ℕ)
    (hskip : ∀ r ∈ rows, s1Skip r = false)
    (hnd : (rows.map S1Row.brand).Nodup) :
    dictInc (buildDict rows) i = rows.any fun r => rowHasInc r.readings i := by
  rw [buildDict_eq_of_nodup rows hskip hnd]
  unfold dictInc
  rw [any_map_eq, any_filter_eq]
  apply any_congr_eq
  intro r _
  show (!(r.readings.all Option.isNone) && rowHasInc r.readings i) = rowHasInc r.readings i
  by_cases hall : r.readings.all Option.isNone = true
  · rw [hall, rowHasInc_false_of_all_none r.readings i hall]
    rfl
  · rw [Bool.eq_false_iff.mpr hall]
    rfl

/-- Claim C1 as amended.  Provided the filtered rows have pairwise-distinct
brand texts, none of which is blank or reads `nan`/`none`, the global anchor
date computed by the code (which collects readings into a brand-keyed dict,
server.py lines 179-195, letting a later duplicate brand replace an earlier
row) coincides with the anchor the claim describes: scanning every row in
filtered order for each consecutive sorted-date pair and taking the later
label of the first strict increase, or the first label when there is none. -/
theorem anchor_dict_matches_rows :
    ∀ (labels : List String) (rows : List S1Row),
      (∀ r ∈ rows, s1Skip r = false) →
      (rows.map S1Row.brand).Nodup →
      findD1 labels (buildDict rows) = claimFindD1 labels rows := by
  intro labels rows hskip hnd
  unfold findD1 claimFindD1
  have hfun : (fun i => dictInc (buildDict rows) i) =
      (fun i => rows.any fun r => rowHasInc r.readings i) :=
    funext fun i => dictInc_eq_rows_any rows i hskip hnd
  rw [hfun]

/-- Witness for `anchor_dict_matches_rows`: with two distinct brands, one
decreasing and one increasing on the second date, both resolutions name the
second label. -/
theorem anchor_dict_matches_rows_witness :
    findD1 ["01-aug", "02-aug"]
        (buildDict [⟨"A", [some 2, some 1]⟩, ⟨"B", [some 1, some 2]⟩]) =
      claimFindD1 ["01-aug", "02-aug"] [⟨"A", [some 2, some 1]⟩, ⟨"B", [some 1, some 2]⟩] :=
  anchor_dict_matches_rows ["01-aug", "02-aug"]
    [⟨"A", [some 2, some 1]⟩, ⟨"B", [some 1, some 2]⟩] (by decide) (by decide)

/-- Counterexample to claim C1.  Two filtered rows share the brand text "A";
the first increases from the first to the second sorted date, the second
decreases.  The claim's row-scanning algorithm anchors on the second label,
but the code keys `all_brand_stock_data` by brand name (server.py line 195),
so the second row overwrites the first and the code finds no increase,
anchoring on the first label instead. -/
theorem anchor_claim_counterexample :
    findD1 ["01-aug", "02-aug"]
        (buildDict [⟨"A", [some 1, some 2]⟩, ⟨"A", [some 2, some 1]⟩]) = "01-aug" ∧
      claimFindD1 ["01-aug", "02-aug"]
        [⟨"A", [some 1, some 2]⟩, ⟨"A", [some 2, some 1]⟩] = "02-aug" ∧
      ("01-aug" : String) ≠ "02-aug" := by
  refine ⟨by decide, by decide, by decide⟩

end BoozeAnalysis
